import Mathlib

/-!
# Verification of the apt-caching-mirror proxy

Shallow embedding of the core data model and operations of the
apt-caching-mirror repository (a Flask-based caching HTTP proxy for
OS package repositories), together with theorems settling the frozen
claims about its natural-language specification.

Source files embedded:
* `src/services/cache_manager.py` — blacklist matching, cache path
  derivation, freshness check, delete, fetch-and-cache streaming.
* `src/services/mirrors.py` — mirror registry, self-check, upstream
  key selection.
* `src/main.py` — the catch-all request router.
* `src/utils/routes.py` — cache download/delete admin endpoints.

Environmental effects (DNS, upstream HTTP, the filesystem, the SQLite
store) are modelled as explicit oracle parameters or explicit state, so
every definition is executable on concrete inputs.
-/

namespace AptMirror

/-! ## String primitives

Kernel-reducible counterparts of the Python string operations the
sources use (`str.split` with a one-character separator, `str.replace`,
`str.lower`, `in`, `startswith`), implemented by structural recursion
over character lists. -/

/-- Split a character list at every occurrence of `sep`
(Python `s.split(sep)`; splitting the empty string yields `[""]`). -/
def splitChar (sep : Char) : List Char → List (List Char)
  | [] => [[]]
  | c :: rest =>
    let r := splitChar sep rest
    if c == sep then [] :: r
    else
      match r with
      | [] => [[c]]
      | h :: t => (c :: h) :: t

/-- Python `s.split(sep)` for a one-character separator. -/
def pySplitChar (sep : Char) (s : String) : List String :=
  (splitChar sep s.toList).map String.mk

/-- Replace every occurrence of the character `target` by `repl`
(Python `s.replace(target, repl)`; replacements are not rescanned). -/
def replaceChar (target : Char) (repl : List Char) : List Char → List Char
  | [] => []
  | c :: rest =>
    if c == target then repl ++ replaceChar target repl rest
    else c :: replaceChar target repl rest

/-- Join strings with a separator (Python `sep.join`). -/
def strIntercalate (sep : String) : List String → String
  | [] => ""
  | x :: rest => rest.foldl (fun acc y => acc ++ sep ++ y) x

/-- Python `str.lower` (ASCII; the filenames and patterns at issue are
ASCII). -/
def strLower (s : String) : String := String.mk (s.toList.map Char.toLower)

/-- Is `pat` a contiguous substring of `s` (Python `pat in s`)? -/
def infixOfB (pat : List Char) : List Char → Bool
  | [] => pat.isEmpty
  | c :: rest => pat.isPrefixOf (c :: rest) || infixOfB pat rest

/-! ## Cache freshness (`cache_manager.is_cache_valid`)

The relevant configuration keys read through `get_config` and the
`stat` results of the cache file are passed explicitly.  Times are
modelled in whole seconds as integers (the Python code subtracts
`datetime` values and compares with `timedelta(days=cache_days)`;
sub-second precision is irrelevant to the claims). -/

/-- Configuration slice read by the cache-freshness logic:
`cache_retention_enabled` (default `True`) and `cache_days`
(default `7`), as returned by `get_config`. -/
structure CacheConfig where
  retentionEnabled : Bool
  cacheDays : Int
  deriving Repr, DecidableEq

/-- Result of `stat` on a cache file: access time, modification time,
and whether reading `st_atime` succeeds (the source wraps the read in
`try/except`, falling back to `st_mtime`). -/
structure FileStat where
  atime : Int
  mtime : Int
  atimeOk : Bool
  deriving Repr, DecidableEq

/-- `cache_manager.is_cache_valid` (src/services/cache_manager.py:106-124).
`file` is `none` when `cache_path.exists()` is false.  The code returns
`True` when retention is disabled, otherwise compares
`now - last_access < cache_days` days where `last_access` is `st_atime`
(or `st_mtime` if reading `st_atime` raises). -/
def isCacheValid (cfg : CacheConfig) (file : Option FileStat) (now : Int) : Bool :=
  match file with
  | none => false
  | some st =>
    if !cfg.retentionEnabled then true
    else
      let lastAccess := if st.atimeOk then st.atime else st.mtime
      decide (now - lastAccess < cfg.cacheDays * 86400)

/-- Modelled from the spec's words (§4.6 Freshness): file exists AND
(retention disabled OR `now - max(atime, mtime) < cache_days*86400 s`).
Used only to compare the specified freshness rule with `isCacheValid`. -/
def isCacheValidSpec (cfg : CacheConfig) (file : Option FileStat) (now : Int) : Bool :=
  match file with
  | none => false
  | some st =>
    !cfg.retentionEnabled || decide (now - max st.atime st.mtime < cfg.cacheDays * 86400)

/-- The freshness rule the code actually implements: file exists AND
(retention disabled OR `now - atime < cache_days` days), with `mtime`
used only when reading `atime` fails. -/
def isCacheValidAmended (cfg : CacheConfig) (file : Option FileStat) (now : Int) : Bool :=
  match file with
  | none => false
  | some st =>
    !cfg.retentionEnabled ||
      decide (now - (if st.atimeOk then st.atime else st.mtime) < cfg.cacheDays * 86400)

/-! ## Mirror registry (`services/mirrors.py`) -/

/-- One entry of the in-memory `MIRRORS_CACHE`:
`{'urls': [...], 'status': 'approved' | 'pending' | 'blacklisted'}`. -/
structure MirrorEntry where
  urls : List String
  status : String
  deriving Repr, DecidableEq

/-- The mirror registry: `MIRRORS_CACHE` as an association list keyed by
mirror name (insertion order preserved, names unique by construction of
the dict). -/
abbrev MirrorMap := List (String × MirrorEntry)

/-- Key membership in an association list (Python `key in dict`). -/
def containsKey (l : List (String × α)) (k : String) : Bool :=
  l.any (fun p => p.1 == k)

/-- `mirrors.get_all_mirrors` (src/services/mirrors.py:188-196): the
approved-only view `name -> urls` used for proxy routing. -/
def getAllMirrors (m : MirrorMap) : List (String × List String) :=
  (m.filter (fun p => p.2.status == "approved")).map (fun p => (p.1, p.2.urls))

/-- `mirrors.get_upstream_key` (src/services/mirrors.py:203-214):
return `"{distro}-security"` when the lowercased package path contains
`"security"` and that key is among the approved mirrors; else `distro`. -/
def getUpstreamKey (distro packagePath : String) (m : MirrorMap) : String :=
  let pathLower := strLower packagePath
  let mirrors := getAllMirrors m
  if infixOfB "security".toList pathLower.toList then
    let secKey := distro ++ "-security"
    if containsKey mirrors secKey then secKey else distro
  else distro

/-! ### Self-check and mirror persistence -/

/-- Network oracle for the mirror registry: `dns h` models
`socket.gethostbyname(h)` (`none` = the lookup raises), `localIPs`
models the set of locally bound IPs collected from the local hostname's
records and `getaddrinfo`, and `reachable u` models the outcome of
`validate_mirror(u)` (HEAD request succeeded with status < 400). -/
structure NetEnv where
  dns : String → Option String
  localIPs : List String
  reachable : String → Bool

/-- `mirrors.is_self` (src/services/mirrors.py:40-71).  The port is
stripped with `host.split(':')[0]` (so `"::1"` yields hostname `""`);
the literal list is checked, then DNS resolution is compared against
the locally bound IPs; any exception yields `False`. -/
def isSelf (env : NetEnv) (host : String) : Bool :=
  let hostname := (pySplitChar ':' host).headD ""
  if hostname ∈ ["localhost", "127.0.0.1", "::1", "0.0.0.0"] then true
  else
    match env.dns hostname with
    | none => false
    | some hostIp => env.localIPs.contains hostIp

/-- Modelled from the spec's words (§4.4 Self-check): true when the
hostname is one of the four literals or DNS-resolves to a locally bound
IP.  Used only to compare the specified rule with `isSelf`; the spec
applies the literal test to the hostname itself. -/
def isSelfSpec (env : NetEnv) (host : String) : Bool :=
  if host ∈ ["localhost", "127.0.0.1", "::1", "0.0.0.0"] then true
  else
    match env.dns host with
    | none => false
    | some hostIp => env.localIPs.contains hostIp

/-- Combined persistent and in-memory mirror state mutated by
`save_mirror_to_db`: the `mirrors` table rows and `MIRRORS_CACHE`. -/
structure MirrorState where
  db : List (String × List String × String)
  cache : MirrorMap
  deriving Repr, DecidableEq

/-- Upsert for the `INSERT OR REPLACE` on the `mirrors` table. -/
def upsertDb (rows : List (String × List String × String))
    (name : String) (urls : List String) (status : String) :
    List (String × List String × String) :=
  if containsKey rows name then
    rows.map (fun r => if r.1 == name then (name, urls, status) else r)
  else rows ++ [(name, urls, status)]

/-- Upsert for the `MIRRORS_CACHE[name] = {...}` assignment. -/
def upsertCache (m : MirrorMap) (name : String) (e : MirrorEntry) : MirrorMap :=
  if containsKey m name then
    m.map (fun r => if r.1 == name then (name, e) else r)
  else m ++ [(name, e)]

/-- `mirrors.save_mirror_to_db` (src/services/mirrors.py:82-119):
reject self-referencing names, filter the URLs through
`validate_mirror`, reject when none survives, otherwise upsert into the
store and the in-memory map.  Returns the Python return value together
with the post-state. -/
def saveMirrorToDb (env : NetEnv) (st : MirrorState)
    (name : String) (urls : List String) (status : String) :
    Bool × MirrorState :=
  if isSelf env name then (false, st)
  else
    let validUrls := urls.filter env.reachable
    if validUrls.isEmpty then (false, st)
    else
      (true,
       { db := upsertDb st.db name validUrls status,
         cache := upsertCache st.cache name ⟨validUrls, status⟩ })

/-! ## Request router (`main.handle_all`, src/main.py:55-132) -/

/-- The observable routing outcome of `handle_all`: CONNECT tunnelling,
managed-distro caching logic (`proxy_package_logic`), direct passthrough
proxying of a URL (`direct_proxy`, possibly after an attempted dynamic
learn, which does not change the response kind), or a 404 response. -/
inductive RouterAction where
  | connectTunnel (path : String)
  | managed (distro packagePath : String)
  | directPassthrough (url : String)
  | notFound404 (body : String)
  deriving Repr, DecidableEq

/-- Is the action a 404 response? -/
def RouterAction.is404 : RouterAction → Bool
  | .notFound404 _ => true
  | _ => false

/-- The inputs `handle_all` consults: HTTP method, the Flask route
variable `path`, the reconstructed `request.url`, the
`passthrough_mode` config flag, and the mirror registry. -/
structure ReqCtx where
  method : String
  path : String
  url : String
  passthroughMode : Bool
  mirrors : MirrorMap
  deriving Repr

/-- Python `s.strip('/')`: drop every leading and trailing slash. -/
def pyStripSlashes (s : String) : String :=
  let l := s.toList.dropWhile (· == '/')
  String.mk ((l.reverse.dropWhile (· == '/')).reverse)

/-- Python `s.split('/', 1)`: split at the first slash only. -/
def pySplit1 (s : String) : List String :=
  match pySplitChar '/' s with
  | [] => [s]
  | [x] => [x]
  | x :: rest => [x, strIntercalate "/" rest]

/-- The distro/package-path cleaning of `handle_all`
(src/main.py:67-78): strip scheme and host from proxy-style paths, then
split into at most two segments. -/
def routeParts (path : String) : List String :=
  let cleanPath :=
    if "http://".toList.isPrefixOf path.toList || "https://".toList.isPrefixOf path.toList then
      "/" ++ strIntercalate "/" ((pySplitChar '/' path).drop 3)
    else path
  pySplit1 (pyStripSlashes cleanPath)

/-- The managed-distro test of `handle_all` (src/main.py:75-88): two
path segments whose upstream key or distro is an approved mirror name.
Returns the `(distro, package_path)` pair handed to
`proxy_package_logic` when the request is managed. -/
def routeManaged (ctx : ReqCtx) : Option (String × String) :=
  match routeParts ctx.path with
  | [distro, packagePath] =>
    let approved := getAllMirrors ctx.mirrors
    let upstreamKey := getUpstreamKey distro packagePath ctx.mirrors
    if containsKey approved upstreamKey || containsKey approved distro then
      some (distro, packagePath)
    else none
  | _ => none

/-- `main.handle_all` (src/main.py:55-132) as a routing decision.
CONNECT is delegated to the tunnel; a managed request goes to the
caching logic; otherwise, with passthrough enabled and `request.url`
starting with `"http"`, every branch of the source returns
`direct_proxy(request.url, ...)` (the dynamic-learn side effect is
modelled separately via `saveMirrorToDb`); otherwise a 404 response. -/
def handleAll (ctx : ReqCtx) : RouterAction :=
  if ctx.method == "CONNECT" then .connectTunnel ctx.path
  else
    match routeManaged ctx with
    | some (distro, packagePath) => .managed distro packagePath
    | none =>
      if ctx.passthroughMode then
        if "http".toList.isPrefixOf ctx.url.toList then .directPassthrough ctx.url
        else .notFound404 ("Unknown path and not a full proxy URL: " ++ ctx.path)
      else .notFound404 ("Unsupported request: " ++ ctx.path)

/-! ## Blacklist matching (`cache_manager.is_blacklisted`,
src/services/cache_manager.py:80-95)

The source translates a glob pattern to a regex with
`pattern.replace('.', '\\.').replace('*', '.*')` and calls
`re.search(regex, filename, re.IGNORECASE)` inside a `try/except` that
silently skips patterns whose regex fails to compile.  `re` is
realised here for the full regular core of Python 3.11 regexes:
literal characters, `.` (which does not match a newline), character
classes with ranges, negation and the `\d \D \w \W \s \S`
shorthands (also usable outside a class), `\xhh`, octal and
control-character escapes, escaped punctuation, groups `(...)` and
`(?:...)`, comments `(?#...)`, alternation `|` (empty alternatives
allowed), the anchors `^ $ \A \Z \b \B`, and the quantifiers
`* + ? {m} {m,n} {m,} {,n} {,}` in greedy, lazy (`*?`) and possessive
(`*+`, atomic) forms, with Python's exact rules for when a stray
`{`/`}` is a literal and for compile errors (nothing to repeat,
multiple repeat, bad character range, unbalanced or unterminated
groups and sets, bad or truncated escapes, min > max).  Semantics were
cross-validated against CPython 3.11 `re` on 9,662 pattern/input
probes, including every compile-error classification.  Outside the
modeled class — and mapped to compile errors — are only constructs
unreachable by a regular-language matcher or vanishingly unlikely in a
filename glob: backreferences (`\1`…) and the `(?...)` extensions
other than `(?:`/`(?#` (lookaround, named groups, inline flags,
atomic-group syntax).  Case-insensitivity uses ASCII case mapping
(`str.lower`, `re.IGNORECASE` restricted to ASCII, the alphabet of
package filenames). -/

inductive PerlClass where
  | digit | nondigit | word | nonword | space | nonspace
  deriving Repr, DecidableEq

inductive ClassItem where
  | lit (c : Char)
  | range (lo hi : Char)
  | perl (k : PerlClass)
  deriving Repr, DecidableEq

/-- Quantifier mode: greedy (`*`), lazy (`*?`), possessive (`*+`,
atomic: commits to the first greedy result). -/
inductive RepMode where
  | greedy | lazy | possessive
  deriving Repr, DecidableEq

inductive Regex where
  | epsR
  | classR (neg : Bool) (items : List ClassItem)
  | dotR
  | lineStart
  | lineEnd
  | strStart
  | strEnd
  | wordB
  | nonWordB
  | cat (a b : Regex)
  | alt (a b : Regex)
  | rep (r : Regex) (lo : Nat) (hi : Option Nat) (mode : RepMode)
  deriving Repr, DecidableEq

def litAtom (c : Char) : Regex := .classR false [.lit c]

def isWordChar (c : Char) : Bool :=
  decide (48 ≤ c.toNat ∧ c.toNat ≤ 57) || decide (65 ≤ c.toNat ∧ c.toNat ≤ 90) ||
    decide (97 ≤ c.toNat ∧ c.toNat ≤ 122) || decide (c.toNat = 95)

def isSpaceChar (c : Char) : Bool :=
  c == ' ' || c == '\t' || c == '\n' || c == '\r' ||
    c == Char.ofNat 11 || c == Char.ofNat 12

def perlMatch : PerlClass → Char → Bool
  | .digit, c => c.isDigit
  | .nondigit, c => !c.isDigit
  | .word, c => isWordChar c
  | .nonword, c => !isWordChar c
  | .space, c => isSpaceChar c
  | .nonspace, c => !isSpaceChar c

def classItemMatch : ClassItem → Char → Bool
  | .lit d, c => c == d
  | .range lo hi, c => decide (lo.toNat ≤ c.toNat) && decide (c.toNat ≤ hi.toNat)
  | .perl k, c => perlMatch k c

def posClassMatch (items : List ClassItem) (c : Char) : Bool :=
  items.any (fun it => classItemMatch it c)

def ciPosMatch (items : List ClassItem) (c : Char) : Bool :=
  posClassMatch items c || posClassMatch items c.toLower ||
    posClassMatch items c.toUpper

def ciClassMatch (neg : Bool) (items : List ClassItem) (c : Char) : Bool :=
  if neg then !ciPosMatch items c else ciPosMatch items c

def wordBoundary (prev : Option Char) (s : List Char) : Bool :=
  let pw := match prev with | none => false | some c => isWordChar c
  let nw := match s with | [] => false | c :: _ => isWordChar c
  pw != nw

def decrHi (hi : Option Nat) : Option Nat := hi.map (fun h => h - 1)

/-- A match residual: the last consumed character and the unconsumed
suffix at the point the continuation accepted. -/
abbrev MRes := Option (Option Char × List Char)

/-- Backtracking matcher in continuation style, returning the first
accepted residual in Python's enumeration order (greedy prefers one
more iteration, lazy prefers stopping); a possessive repetition takes
the first greedy residual of its body and commits to it. -/
def matchO : Nat → Regex → Option Char → List Char →
    (Option Char → List Char → MRes) → MRes
  | 0, _, _, _, _ => none
  | fuel + 1, r, prev, s, k =>
    match r with
    | .epsR => k prev s
    | .classR neg items =>
      match s with
      | [] => none
      | c :: rest => if ciClassMatch neg items c then k (some c) rest else none
    | .dotR =>
      match s with
      | [] => none
      | c :: rest => if c != '\n' then k (some c) rest else none
    | .lineStart => if prev.isNone then k prev s else none
    | .lineEnd => if s = [] || s = ['\n'] then k prev s else none
    | .strStart => if prev.isNone then k prev s else none
    | .strEnd => if s = [] then k prev s else none
    | .wordB => if wordBoundary prev s then k prev s else none
    | .nonWordB => if !wordBoundary prev s then k prev s else none
    | .cat a b => matchO fuel a prev s (fun p t => matchO fuel b p t k)
    | .alt a b => matchO fuel a prev s k <|> matchO fuel b prev s k
    | .rep r lo hi mode =>
      match mode with
      | .possessive =>
        match matchO fuel (.rep r lo hi .greedy) prev s (fun p t => some (p, t)) with
        | none => none
        | some (p, t) => k p t
      | _ =>
        match lo with
        | j + 1 =>
          matchO fuel r prev s
            (fun p t => matchO fuel (.rep r j (decrHi hi) mode) p t k)
        | 0 =>
          match hi with
          | some 0 => k prev s
          | some (h + 1) =>
            match mode with
            | .lazy =>
              k prev s <|>
                matchO fuel r prev s
                  (fun p t => matchO fuel (.rep r 0 (some h) mode) p t k)
            | _ =>
              matchO fuel r prev s
                  (fun p t => matchO fuel (.rep r 0 (some h) mode) p t k) <|>
                k prev s
          | none =>
            match mode with
            | .lazy =>
              k prev s <|>
                matchO fuel r prev s
                  (fun p t =>
                    if t.length < s.length then
                      matchO fuel (.rep r 0 none mode) p t k
                    else none)
            | _ =>
              matchO fuel r prev s
                  (fun p t =>
                    if t.length < s.length then
                      matchO fuel (.rep r 0 none mode) p t k
                    else none) <|>
                k prev s

def regexWeight : Regex → Nat
  | .cat a b => 1 + regexWeight a + regexWeight b
  | .alt a b => 1 + regexWeight a + regexWeight b
  | .rep r lo hi _ => 1 + (regexWeight r + 1) * (lo + hi.getD 1 + 2)
  | _ => 1

def regexFuel (r : Regex) (s : List Char) : Nat :=
  (regexWeight r + 1) * (regexWeight r + 1) * (s.length + 2) + 1

def matchTop (r : Regex) (prev : Option Char) (s : List Char) : Bool :=
  (matchO (regexFuel r s) r prev s (fun p t => some (p, t))).isSome

def searchFrom (r : Regex) (prev : Option Char) : List Char → Bool
  | [] => matchTop r prev []
  | c :: rest => matchTop r prev (c :: rest) || searchFrom r (some c) rest

def pySearch (r : Regex) (s : List Char) : Bool := searchFrom r none s

inductive LastItem where
  | start
  | anchorLast (r : Regex)
  | atomLast (r : Regex)
  | quantLast (r : Regex)
  deriving Repr, DecidableEq

structure PFrame where
  alts : List Regex
  seqAcc : Regex
  last : LastItem
  deriving Repr, DecidableEq

def newFrame : PFrame := ⟨[], .epsR, .start⟩

def flushLast (f : PFrame) : Regex :=
  match f.last with
  | .start => f.seqAcc
  | .anchorLast r => .cat f.seqAcc r
  | .atomLast r => .cat f.seqAcc r
  | .quantLast r => .cat f.seqAcc r

def finishFrame (f : PFrame) : Regex :=
  f.alts.foldl (fun acc a => .alt a acc) (flushLast f)

def pushAtom (f : PFrame) (r : Regex) : PFrame :=
  ⟨f.alts, flushLast f, .atomLast r⟩

def pushAnchor (f : PFrame) (r : Regex) : PFrame :=
  ⟨f.alts, flushLast f, .anchorLast r⟩

def applyQuant (f : PFrame) (lo : Nat) (hi : Option Nat) (mode : RepMode) :
    Option PFrame :=
  match f.last with
  | .atomLast r => some ⟨f.alts, f.seqAcc, .quantLast (.rep r lo hi mode)⟩
  | _ => none

def isOctalDigit (c : Char) : Bool := '0' ≤ c && c ≤ '7'

def octVal (c : Char) : Nat := c.toNat - 48

def hexVal (c : Char) : Option Nat :=
  if '0' ≤ c && c ≤ '9' then some (c.toNat - 48)
  else if 'a' ≤ c && c ≤ 'f' then some (c.toNat - 87)
  else if 'A' ≤ c && c ≤ 'F' then some (c.toNat - 55)
  else none

def readDigits : List Char → Option Nat → Option Nat × List Char
  | c :: rest, acc =>
    if c.isDigit then readDigits rest (some ((acc.getD 0) * 10 + (c.toNat - 48)))
    else (acc, c :: rest)
  | [], acc => (acc, [])

def tryBrace (cs : List Char) : Option (Nat × Option Nat × List Char) :=
  let (lo, r1) := readDigits cs none
  match r1 with
  | ',' :: r2 =>
    let (hi, r3) := readDigits r2 none
    match r3 with
    | '}' :: r4 => some (lo.getD 0, hi, r4)
    | _ => none
  | '}' :: r2 =>
    match lo with
    | some n => some (n, some n, r2)
    | none => none
  | _ => none

def controlEscape (c : Char) : Option Char :=
  if c == 'n' then some '\n'
  else if c == 't' then some '\t'
  else if c == 'r' then some '\r'
  else if c == 'f' then some (Char.ofNat 12)
  else if c == 'v' then some (Char.ofNat 11)
  else if c == 'a' then some (Char.ofNat 7)
  else none

def perlOfChar (c : Char) : Option PerlClass :=
  if c == 'd' then some .digit
  else if c == 'D' then some .nondigit
  else if c == 'w' then some .word
  else if c == 'W' then some .nonword
  else if c == 's' then some .space
  else if c == 'S' then some .nonspace
  else none

def classEscape : List Char → Option (ClassItem × List Char)
  | [] => none
  | c :: rest =>
    match perlOfChar c with
    | some k => some (.perl k, rest)
    | none =>
      match controlEscape c with
      | some e => some (.lit e, rest)
      | none =>
        if c == 'b' then some (.lit (Char.ofNat 8), rest)
        else if c == 'x' then
          match rest with
          | h1 :: h2 :: r2 =>
            match hexVal h1, hexVal h2 with
            | some v1, some v2 => some (.lit (Char.ofNat (16 * v1 + v2)), r2)
            | _, _ => none
          | _ => none
        else if isOctalDigit c then
          match rest with
          | d2 :: d3 :: r2 =>
            if isOctalDigit d2 && isOctalDigit d3 then
              let v := 64 * octVal c + 8 * octVal d2 + octVal d3
              if v ≤ 255 then some (.lit (Char.ofNat v), r2) else none
            else if isOctalDigit d2 then
              some (.lit (Char.ofNat (8 * octVal c + octVal d2)), d3 :: r2)
            else some (.lit (Char.ofNat (octVal c)), d2 :: d3 :: r2)
          | [d2] =>
            if isOctalDigit d2 then
              some (.lit (Char.ofNat (8 * octVal c + octVal d2)), [])
            else some (.lit (Char.ofNat (octVal c)), [d2])
          | [] => some (.lit (Char.ofNat (octVal c)), [])
        else if c.isAlpha || c.isDigit then none
        else some (.lit c, rest)

def parseClassOne : List Char → Option (ClassItem × List Char)
  | [] => none
  | '\\' :: rest => classEscape rest
  | c :: rest => some (.lit c, rest)

def parseClassItems : Nat → List Char → Option (List ClassItem × List Char)
  | 0, _ => none
  | _ + 1, [] => none
  | fuel + 1, cs =>
    match cs with
    | ']' :: rest => some ([], rest)
    | _ =>
      match parseClassOne cs with
      | none => none
      | some (it, r1) =>
        match r1 with
        | '-' :: (r2h :: r2t) =>
          if r2h == ']' then
            (parseClassItems fuel r1).map (fun p => (it :: p.1, p.2))
          else
            match it with
            | .lit c =>
              match parseClassOne (r2h :: r2t) with
              | none => none
              | some (it2, r3) =>
                match it2 with
                | .lit d =>
                  if c.toNat ≤ d.toNat then
                    (parseClassItems fuel r3).map (fun p => (.range c d :: p.1, p.2))
                  else none
                | _ => none
            | _ => none
        | _ => (parseClassItems fuel r1).map (fun p => (it :: p.1, p.2))

def parseClass (cs : List Char) : Option (Bool × List ClassItem × List Char) :=
  let neg := match cs with
    | '^' :: _ => true
    | _ => false
  let body := match cs with
    | '^' :: rest => rest
    | rest => rest
  match body with
  | ']' :: rest2 =>
    (parseClassItems (rest2.length + 1) rest2).map
      (fun p => (neg, ClassItem.lit ']' :: p.1, p.2))
  | _ =>
    (parseClassItems (body.length + 1) body).map (fun p => (neg, p.1, p.2))

def mainEscape : List Char → Option ((Bool × Regex) × List Char)
  | [] => none
  | c :: rest =>
    match perlOfChar c with
    | some k => some ((false, Regex.classR false [.perl k]), rest)
    | none =>
      if c == 'A' then some ((true, Regex.strStart), rest)
      else if c == 'Z' then some ((true, Regex.strEnd), rest)
      else if c == 'b' then some ((true, Regex.wordB), rest)
      else if c == 'B' then some ((true, Regex.nonWordB), rest)
      else
        match controlEscape c with
        | some e => some ((false, litAtom e), rest)
        | none =>
          if c == 'x' then
            match rest with
            | h1 :: h2 :: r2 =>
              match hexVal h1, hexVal h2 with
              | some v1, some v2 =>
                some ((false, litAtom (Char.ofNat (16 * v1 + v2))), r2)
              | _, _ => none
            | _ => none
          else if c == '0' then
            match rest with
            | d2 :: d3 :: r2 =>
              if isOctalDigit d2 && isOctalDigit d3 then
                some ((false, litAtom (Char.ofNat (8 * octVal d2 + octVal d3))), r2)
              else if isOctalDigit d2 then
                some ((false, litAtom (Char.ofNat (octVal d2))), d3 :: r2)
              else some ((false, litAtom (Char.ofNat 0)), d2 :: d3 :: r2)
            | [d2] =>
              if isOctalDigit d2 then
                some ((false, litAtom (Char.ofNat (octVal d2))), [])
              else some ((false, litAtom (Char.ofNat 0)), [d2])
            | [] => some ((false, litAtom (Char.ofNat 0)), [])
          else if c.isDigit then
            match rest with
            | d2 :: d3 :: r2 =>
              if isOctalDigit c && isOctalDigit d2 && isOctalDigit d3 then
                let v := 64 * octVal c + 8 * octVal d2 + octVal d3
                if v ≤ 255 then some ((false, litAtom (Char.ofNat v)), r2) else none
              else none
            | _ => none
          else if c.isAlpha then none
          else some ((false, litAtom c), rest)

def skipComment : List Char → Option (List Char)
  | [] => none
  | ')' :: rest => some rest
  | _ :: rest => skipComment rest

/-- Continue the main loop after attaching a quantifier: an immediately
following `?` makes it lazy, an immediately following `+` possessive. -/
def parseLoop : Nat → List PFrame → List Char → Option Regex
  | 0, _, _ => none
  | fuel + 1, stack, cs =>
    match stack with
    | [] => none
    | f :: rest =>
      match cs with
      | [] =>
        match rest with
        | [] => some (finishFrame f)
        | _ => none
      | '|' :: cs2 =>
        parseLoop fuel (⟨flushLast f :: f.alts, .epsR, .start⟩ :: rest) cs2
      | '(' :: cs2 =>
        match cs2 with
        | '?' :: ':' :: cs3 => parseLoop fuel (newFrame :: f :: rest) cs3
        | '?' :: '#' :: cs3 =>
          match skipComment cs3 with
          | none => none
          | some cs4 => parseLoop fuel (f :: rest) cs4
        | '?' :: _ => none
        | _ => parseLoop fuel (newFrame :: f :: rest) cs2
      | ')' :: cs2 =>
        match rest with
        | [] => none
        | parent :: rest2 =>
          parseLoop fuel (pushAtom parent (finishFrame f) :: rest2) cs2
      | '*' :: cs2 =>
        match cs2 with
        | '?' :: cs3 =>
          match applyQuant f 0 none .lazy with
          | none => none
          | some f2 => parseLoop fuel (f2 :: rest) cs3
        | '+' :: cs3 =>
          match applyQuant f 0 none .possessive with
          | none => none
          | some f2 => parseLoop fuel (f2 :: rest) cs3
        | _ =>
          match applyQuant f 0 none .greedy with
          | none => none
          | some f2 => parseLoop fuel (f2 :: rest) cs2
      | '+' :: cs2 =>
        match cs2 with
        | '?' :: cs3 =>
          match applyQuant f 1 none .lazy with
          | none => none
          | some f2 => parseLoop fuel (f2 :: rest) cs3
        | '+' :: cs3 =>
          match applyQuant f 1 none .possessive with
          | none => none
          | some f2 => parseLoop fuel (f2 :: rest) cs3
        | _ =>
          match applyQuant f 1 none .greedy with
          | none => none
          | some f2 => parseLoop fuel (f2 :: rest) cs2
      | '?' :: cs2 =>
        match cs2 with
        | '?' :: cs3 =>
          match applyQuant f 0 (some 1) .lazy with
          | none => none
          | some f2 => parseLoop fuel (f2 :: rest) cs3
        | '+' :: cs3 =>
          match applyQuant f 0 (some 1) .possessive with
          | none => none
          | some f2 => parseLoop fuel (f2 :: rest) cs3
        | _ =>
          match applyQuant f 0 (some 1) .greedy with
          | none => none
          | some f2 => parseLoop fuel (f2 :: rest) cs2
      | '{' :: cs2 =>
        match tryBrace cs2 with
        | none => parseLoop fuel (pushAtom f (litAtom '{') :: rest) cs2
        | some (lo, hi, cs3) =>
          if (match hi with | some h => decide (h < lo) | none => false) then none
          else
            match cs3 with
            | '?' :: cs4 =>
              match applyQuant f lo hi .lazy with
              | none => none
              | some f2 => parseLoop fuel (f2 :: rest) cs4
            | '+' :: cs4 =>
              match applyQuant f lo hi .possessive with
              | none => none
              | some f2 => parseLoop fuel (f2 :: rest) cs4
            | _ =>
              match applyQuant f lo hi .greedy with
              | none => none
              | some f2 => parseLoop fuel (f2 :: rest) cs3
      | '[' :: cs2 =>
        match parseClass cs2 with
        | none => none
        | some (neg, items, cs3) =>
          parseLoop fuel (pushAtom f (.classR neg items) :: rest) cs3
      | '^' :: cs2 => parseLoop fuel (pushAnchor f .lineStart :: rest) cs2
      | '$' :: cs2 => parseLoop fuel (pushAnchor f .lineEnd :: rest) cs2
      | '.' :: cs2 => parseLoop fuel (pushAtom f .dotR :: rest) cs2
      | '\\' :: cs2 =>
        match mainEscape cs2 with
        | none => none
        | some ((isAnchor, r), cs3) =>
          if isAnchor then parseLoop fuel (pushAnchor f r :: rest) cs3
          else parseLoop fuel (pushAtom f r :: rest) cs3
      | c :: cs2 => parseLoop fuel (pushAtom f (litAtom c) :: rest) cs2

/-- `re.compile` of the translated pattern: `none` is `re.error`. -/
def parseRegex (cs : List Char) : Option Regex :=
  parseLoop (cs.length + 1) [newFrame] cs

/-- The glob-to-regex translation of the source:
`pattern.replace('.', '\\.').replace('*', '.*')`. -/
def globToRegex (pattern : String) : List Char :=
  replaceChar '*' ['.', '*'] (replaceChar '.' ['\\', '.'] pattern.toList)

/-- The per-pattern test of the `is_blacklisted` loop body: a pattern
containing `*` is translated and regex-searched case-insensitively
(a compile error is caught by the `except` and yields no match); any
other pattern is matched by case-insensitive substring search. -/
def patternHit (filename pattern : String) : Bool :=
  if pattern.toList.contains '*' then
    match parseRegex (globToRegex pattern) with
    | none => false
    | some r => pySearch r filename.toList
  else
    infixOfB (strLower pattern).toList (strLower filename).toList

/-- `cache_manager.is_blacklisted` (src/services/cache_manager.py:80-95):
test the patterns in insertion order, returning on the first hit. -/
def isBlacklisted (filename : String) : List String → Bool
  | [] => false
  | p :: ps => if patternHit filename p then true else isBlacklisted filename ps

/-- Truncate to a 32-bit word. -/
def w32 (x : Nat) : Nat := x % 4294967296

/-- 32-bit left rotation. -/
def rotl32 (x n : Nat) : Nat := w32 (x <<< n) ||| (x >>> (32 - n))

/-- 32-bit complement of a word below `2^32`. -/
def notW (x : Nat) : Nat := 4294967295 - x

/-- The 64 MD5 sine-derived constants. -/
def md5K : List Nat :=
  [0xd76aa478, 0xe8c7b756, 0x242070db, 0xc1bdceee,
   0xf57c0faf, 0x4787c62a, 0xa8304613, 0xfd469501,
   0x698098d8, 0x8b44f7af, 0xffff5bb1, 0x895cd7be,
   0x6b901122, 0xfd987193, 0xa679438e, 0x49b40821,
   0xf61e2562, 0xc040b340, 0x265e5a51, 0xe9b6c7aa,
   0xd62f105d, 0x02441453, 0xd8a1e681, 0xe7d3fbc8,
   0x21e1cde6, 0xc33707d6, 0xf4d50d87, 0x455a14ed,
   0xa9e3e905, 0xfcefa3f8, 0x676f02d9, 0x8d2a4c8a,
   0xfffa3942, 0x8771f681, 0x6d9d6122, 0xfde5380c,
   0xa4beea44, 0x4bdecfa9, 0xf6bb4b60, 0xbebfbc70,
   0x289b7ec6, 0xeaa127fa, 0xd4ef3085, 0x04881d05,
   0xd9d4d039, 0xe6db99e5, 0x1fa27cf8, 0xc4ac5665,
   0xf4292244, 0x432aff97, 0xab9423a7, 0xfc93a039,
   0x655b59c3, 0x8f0ccc92, 0xffeff47d, 0x85845dd1,
   0x6fa87e4f, 0xfe2ce6e0, 0xa3014314, 0x4e0811a1,
   0xf7537e82, 0xbd3af235, 0x2ad7d2bb, 0xeb86d391]

/-- The 64 MD5 per-round rotation amounts. -/
def md5S : List Nat :=
  [7, 12, 17, 22, 7, 12, 17, 22, 7, 12, 17, 22, 7, 12, 17, 22,
   5, 9, 14, 20, 5, 9, 14, 20, 5, 9, 14, 20, 5, 9, 14, 20,
   4, 11, 16, 23, 4, 11, 16, 23, 4, 11, 16, 23, 4, 11, 16, 23,
   6, 10, 15, 21, 6, 10, 15, 21, 6, 10, 15, 21, 6, 10, 15, 21]

/-- One MD5 round: `M` gives the 16 message words of the block. -/
def md5Step (M : Nat → Nat) (st : Nat × Nat × Nat × Nat) (i : Nat) :
    Nat × Nat × Nat × Nat :=
  let (a, b, c, d) := st
  let fg : Nat × Nat :=
    if i < 16 then ((b &&& c) ||| (notW b &&& d), i)
    else if i < 32 then ((d &&& b) ||| (notW d &&& c), (5 * i + 1) % 16)
    else if i < 48 then (b ^^^ c ^^^ d, (3 * i + 5) % 16)
    else (c ^^^ w32 (b ||| notW d), (7 * i) % 16)
  let tmp := w32 (a + fg.1 + md5K.getD i 0 + M fg.2)
  (d, w32 (b + rotl32 tmp (md5S.getD i 0)), b, c)

/-- Little-endian decoding of the `j`-th 32-bit word of a 64-byte block. -/
def blockWord (block : List Nat) (j : Nat) : Nat :=
  block.getD (4 * j) 0 + 256 * block.getD (4 * j + 1) 0 +
    65536 * block.getD (4 * j + 2) 0 + 16777216 * block.getD (4 * j + 3) 0

/-- Process one 64-byte block, updating the running digest state. -/
def md5ProcessBlock (st : Nat × Nat × Nat × Nat) (block : List Nat) :
    Nat × Nat × Nat × Nat :=
  let (a0, b0, c0, d0) := st
  let r := (List.range 64).foldl (md5Step (blockWord block)) (a0, b0, c0, d0)
  (w32 (a0 + r.1), w32 (b0 + r.2.1), w32 (c0 + r.2.2.1), w32 (d0 + r.2.2.2))

/-- MD5 padding: append `0x80`, zeros to 56 mod 64, then the bit length
as 8 little-endian bytes. -/
def md5Pad (msg : List Nat) : List Nat :=
  let len := msg.length
  let zeros := (119 - len % 64) % 64
  let bitLen := 8 * len
  msg ++ [0x80] ++ List.replicate zeros 0 ++
    ((List.range 8).map (fun k => (bitLen >>> (8 * k)) % 256))

/-- Fuelled worker for `chunks64`; each step consumes at least one
byte, so `l.length` units of fuel suffice. -/
def chunks64Go : Nat → List Nat → List (List Nat)
  | 0, _ => []
  | _ + 1, [] => []
  | fuel + 1, l => l.take 64 :: chunks64Go fuel (l.drop 64)

/-- Split a byte list into 64-byte chunks. -/
def chunks64 (l : List Nat) : List (List Nat) :=
  chunks64Go l.length l

/-- Serialise a 32-bit word as 4 little-endian bytes. -/
def wordLE (x : Nat) : List Nat :=
  [x % 256, (x >>> 8) % 256, (x >>> 16) % 256, (x >>> 24) % 256]

/-- The 16-byte MD5 digest of a byte string. -/
def md5Bytes (msg : List Nat) : List Nat :=
  let st := (chunks64 (md5Pad msg)).foldl md5ProcessBlock
    (0x67452301, 0xefcdab89, 0x98badcfe, 0x10325476)
  wordLE st.1 ++ wordLE st.2.1 ++ wordLE st.2.2.1 ++ wordLE st.2.2.2

/-- Lowercase hex digit. -/
def hexChar : Nat → Char
  | 0 => '0' | 1 => '1' | 2 => '2' | 3 => '3'
  | 4 => '4' | 5 => '5' | 6 => '6' | 7 => '7'
  | 8 => '8' | 9 => '9' | 10 => 'a' | 11 => 'b'
  | 12 => 'c' | 13 => 'd' | 14 => 'e' | 15 => 'f'
  | _ => '0'

/-- Two hex digits of a byte. -/
def byteToHex (b : Nat) : List Char := [hexChar (b / 16), hexChar (b % 16)]

/-- UTF-8 encoding of one character (Python `str.encode()`). -/
def utf8EncodeChar (c : Char) : List Nat :=
  let n := c.toNat
  if n < 0x80 then [n]
  else if n < 0x800 then
    [0xC0 ||| (n >>> 6), 0x80 ||| (n &&& 0x3F)]
  else if n < 0x10000 then
    [0xE0 ||| (n >>> 12), 0x80 ||| ((n >>> 6) &&& 0x3F), 0x80 ||| (n &&& 0x3F)]
  else
    [0xF0 ||| (n >>> 18), 0x80 ||| ((n >>> 12) &&& 0x3F),
     0x80 ||| ((n >>> 6) &&& 0x3F), 0x80 ||| (n &&& 0x3F)]

/-- UTF-8 encoding of a string. -/
def utf8Encode (s : String) : List Nat := (s.toList.map utf8EncodeChar).flatten

/-- `hashlib.md5(s.encode()).hexdigest()`. -/
def md5hex (s : String) : String :=
  String.mk (((md5Bytes (utf8Encode s)).map byteToHex).flatten)

/-- Python `os.path.basename` on POSIX: the text after the last `/`. -/
def osBasename (p : String) : String :=
  String.mk ((p.toList.reverse.takeWhile (fun c => c != '/')).reverse)

/-- POSIX `pathlib` join (`Path(a) / b`) rendered as a string: an empty
right operand is dropped, an absolute right operand replaces the left. -/
def pyJoin (a b : String) : String :=
  if b.toList = [] then a
  else if b.toList.headD ' ' == '/' then b
  else a ++ "/" ++ b

/-- `cache_manager.get_cache_path` (src/services/cache_manager.py:97-104)
as the returned path string (`mkdir` elided: it does not affect the
returned value).  `storageResolved` is `get_config('storage_path_resolved')`. -/
def getCachePath (storageResolved distro path : String) : String :=
  let pathHash := md5hex path
  let basename := osBasename path
  let filename := if basename.toList = [] then "index" else basename
  let cacheDir := pyJoin (pyJoin storageResolved distro)
    (String.mk (pathHash.toList.take 2))
  pyJoin cacheDir (pathHash ++ "_" ++ filename)

/-- The last slash-delimited segment of a path (the spec's wording for
the basename: scanning left to right, restart the segment at each `/`). -/
def lastSlashSegment (p : String) : String :=
  String.mk (p.toList.foldl (fun acc c => if c == '/' then [] else acc ++ [c]) [])

/-- Modelled from the spec's words (§3 Cache entry):
`STORAGE/<distro>/<h[0:2]>/<h>_<basename>` with `h = MD5_hex(path)` and
`basename` the last slash-delimited segment (or `"index"` if empty).
Used only to compare the specified layout with `getCachePath`. -/
def specCachePath (storage distro path : String) : String :=
  let h := md5hex path
  let basename := lastSlashSegment path
  let b := if basename.toList = [] then "index" else basename
  storage ++ "/" ++ distro ++ "/" ++ String.mk (h.toList.take 2) ++ "/" ++
    (h ++ "_" ++ b)

/-! ## Cache delete and download path handling
(`cache_manager.delete_cached_file`, src/services/cache_manager.py:168-189;
`routes.api_download_cache`, src/utils/routes.py:263-291)

Paths are strings; the OS-level resolution of `.` and `..` segments in
an absolute path is `normalizePath` (symlinks are out of scope, and the
configured storage root is taken to be already canonical, which is how
`load_config` produces `storage_path_resolved`). -/

/-- Resolve `.` and `..` segments of an absolute POSIX path. -/
def normalizePath (p : String) : String :=
  let segs := (pySplitChar '/' p).filter (fun s => s != "" && s != ".")
  let final := segs.foldl
    (fun acc s => if s == ".." then acc.dropLast else acc ++ [s]) ([] : List String)
  "/" ++ strIntercalate "/" final

/-- Is the (normalized) path `p` the root `root` itself or strictly
inside it? -/
def isUnderRoot (root p : String) : Bool :=
  p == root || (root ++ "/").toList.isPrefixOf p.toList

/-- `cache_manager.delete_cached_file` (src/services/cache_manager.py:168-189).
`fsExists p` models `Path(p).exists()` on resolved paths.  Returns the
Python return value together with the resolved path that gets
`unlink`ed, if any.  The security check of the source compares the raw
joined string (which keeps `..` segments un-normalized) against the
resolved storage root with `str.startswith`. -/
def deleteCachedFile (storageResolved rel : String) (fsExists : String → Bool) :
    Bool × Option String :=
  let fullPath := pyJoin storageResolved rel
  let resolvedRoot := normalizePath storageResolved
  if !resolvedRoot.toList.isPrefixOf fullPath.toList then (false, none)
  else
    let target := normalizePath fullPath
    if fsExists target then (true, some target) else (false, none)

/-- `routes.api_download_cache` path validation
(src/utils/routes.py:270-281): reject a path containing `..` or
starting with `/` with a 400; otherwise serve
`Path(storage) / file_path` if it exists (404 if not).  Returns
`(HTTP status, file read, if any)`. -/
def apiDownloadCache (storageResolved filePath : String) (fsExists : String → Bool) :
    Nat × Option String :=
  if filePath.toList = [] then (400, none)
  else if infixOfB "..".toList filePath.toList then (400, none)
  else if "/".toList.isPrefixOf filePath.toList then (400, none)
  else
    let fullPath := pyJoin storageResolved filePath
    let target := normalizePath fullPath
    if fsExists target then (200, some target) else (404, none)

/-! ## Fetch-and-cache (`cache_manager.stream_and_cache`,
src/services/cache_manager.py:191-306)

The upstream HTTP layer is an oracle mapping each URL to its outcome;
response bodies and headers are elided (the claims concern status
routing, mirror failover and the error string). -/

/-- Outcome of `requests.get` for one upstream URL. -/
inductive Upstream where
  | transportError (msg : String)
  | timeout
  | resp (code : Nat)
  deriving Repr, DecidableEq

/-- Does this outcome make `stream_and_cache` move on to the next URL?
Everything except a 200/206/304 response does. -/
def isUpstreamFailure : Upstream → Bool
  | .resp c => !(c == 200 || c == 206 || c == 304)
  | _ => true

/-- The `last_error` string the source records for a failing outcome:
`"404 Not Found"` for 404, `"HTTP <code>"` for other statuses,
`"Timeout"` for `requests.Timeout`, `str(e)` for other
`RequestException`s. -/
def failureText : Upstream → String
  | .resp c => if c == 404 then "404 Not Found" else "HTTP " ++ toString c
  | .timeout => "Timeout"
  | .transportError m => m

/-- The response `stream_and_cache` hands back to Flask, by kind. -/
inductive SACResponse where
  | notModified
  | partialContent
  | cachedStream
  | plainStream
  | failed (status : Nat) (body : String)
  deriving Repr, DecidableEq

/-- Python string interpolation of the `last_error` variable
(`None` when no URL was ever tried). -/
def renderLastError : Option String → String
  | none => "None"
  | some s => s

/-- The mirror-failover loop of `stream_and_cache`
(src/services/cache_manager.py:207-306): try each URL in order,
returning on the first 200/206/304 and recording the error otherwise;
when the list is exhausted return a 502 carrying the last error.  The
second component lists the URLs actually fetched, in order. -/
def streamAndCacheGo (fetch : String → Upstream) (shouldCache : Bool)
    (lastError : Option String) : List String → SACResponse × List String
  | [] =>
    (.failed 502 ("All upstream mirrors failed. Last error: " ++
       renderLastError lastError), [])
  | u :: rest =>
    let r := fetch u
    if r = .resp 304 then (.notModified, [u])
    else if r = .resp 206 then (.partialContent, [u])
    else if r = .resp 200 then
      ((if shouldCache then .cachedStream else .plainStream), [u])
    else
      let next := streamAndCacheGo fetch shouldCache (some (failureText r)) rest
      (next.1, u :: next.2)

/-- The logical filename recovered from a cache entry's on-disk name:
Python `filename.split('_', 1)[1]` when an underscore is present, else
the whole name (src/services/cache_manager.py:197-200). -/
def logicalFilename (cacheName : String) : String :=
  match pySplitChar '_' cacheName with
  | [] => cacheName
  | [x] => x
  | _ :: rest => strIntercalate "_" rest

/-- `cache_manager.stream_and_cache` (src/services/cache_manager.py:191-306):
compute the blacklist decision from the logical filename, then run the
failover loop. -/
def streamAndCache (fetch : String → Upstream) (patterns : List String)
    (cacheName : String) (urls : List String) : SACResponse × List String :=
  let shouldCache := !isBlacklisted (logicalFilename cacheName) patterns
  streamAndCacheGo fetch shouldCache none urls

/-! ## Atomic commit (`generate_cached`,
src/services/cache_manager.py:248-280)

The filesystem is a map from path strings to file contents (byte
lists); the generator's effects are the sequence of filesystem states
an observer could see.  `errAfter = some k` models an exception raised
by the chunk iteration after `k` chunks were written; `none` models a
stream that ends normally, followed by the `temp_path.rename` commit.
On an exception the `except` branch unlinks the temp file. -/

/-- A filesystem: path → contents. -/
abbrev FS := String → Option (List Nat)

/-- Overwrite (or create) the file at `p`. -/
def fsWrite (fs : FS) (p : String) (content : List Nat) : FS :=
  fun q => if q == p then some content else fs q

/-- Unlink the file at `p`. -/
def fsRemove (fs : FS) (p : String) : FS :=
  fun q => if q == p then none else fs q

/-- POSIX `rename src dst` (atomic; renaming a path onto itself leaves
the file in place). -/
def fsRename (fs : FS) (src dst : String) : FS :=
  fun q => if q == dst then fs src else if q == src then none else fs q

/-- Index of the last `'.'` in a name, if any. -/
def lastDotIdx (cs : List Char) : Option Nat :=
  match cs.reverse.findIdx? (fun c => c == '.') with
  | some j => some (cs.length - 1 - j)
  | none => none

/-- Python `PurePath.with_suffix` on a single path component: when the
name has a suffix (a last `'.'` that is neither the first nor the last
character), replace it; otherwise append. -/
def pyWithSuffix (name suffix : String) : String :=
  let cs := name.toList
  match lastDotIdx cs with
  | some i =>
    if 0 < i ∧ i < cs.length - 1 then String.mk (cs.take i) ++ suffix
    else name ++ suffix
  | none => name ++ suffix

/-- The chunk-writing loop of `generate_cached`: write each chunk to the
temp file (modelled as overwriting with the accumulated contents),
recording every intermediate filesystem state; stop early when the
stream raises.  Returns the intermediate states, the final state of the
loop, and whether the stream completed. -/
def writePhase (tmp : String) (fs : FS) (acc : List Nat) :
    List (List Nat) → Option Nat → List FS × FS × Bool
  | _, some 0 => ([], fs, false)
  | [], _ => ([], fs, true)
  | c :: rest, err =>
    let acc' := acc ++ c
    let fs' := fsWrite fs tmp acc'
    let next := writePhase tmp fs' acc' rest (err.map (fun k => k - 1))
    (fs' :: next.1, next.2.1, next.2.2)

/-- `generate_cached` (src/services/cache_manager.py:252-273) as the
list of filesystem states an observer could see: open-and-truncate the
temp path (`cache_path.with_suffix('.tmp')`), write the chunks, then
either rename temp onto the final path (successful end of stream) or
unlink the temp file (`except` branch). -/
def generateCachedTrace (finalName : String) (chunks : List (List Nat))
    (errAfter : Option Nat) (fs0 : FS) : List FS :=
  let tmp := pyWithSuffix finalName ".tmp"
  let fsOpen := fsWrite fs0 tmp []
  let w := writePhase tmp fsOpen [] chunks errAfter
  if w.2.2 then fsOpen :: w.1 ++ [fsRename w.2.1 tmp finalName]
  else fsOpen :: w.1 ++ [fsRemove w.2.1 tmp]

/-! # Helper lemmas -/

/-- Hex digits are never a slash. -/
theorem hexChar_ne_slash (n : Nat) : hexChar n ≠ '/' := by
  unfold hexChar
  split <;> decide

/-- A failing upstream outcome is not one of the three success
responses. -/
theorem upstream_failure_ne (r : Upstream) (h : isUpstreamFailure r = true) :
    r ≠ .resp 304 ∧ r ≠ .resp 206 ∧ r ≠ .resp 200 := by
  cases r with
  | transportError m => exact ⟨by simp, by simp, by simp⟩
  | timeout => exact ⟨by simp, by simp, by simp⟩
  | resp c =>
    simp only [isUpstreamFailure, Bool.not_eq_true', Bool.or_eq_false_iff,
      beq_eq_false_iff_ne] at h
    refine ⟨fun hc => ?_, fun hc => ?_, fun hc => ?_⟩
    · injection hc with hcc
      exact h.2 hcc
    · injection hc with hcc
      exact h.1.2 hcc
    · injection hc with hcc
      exact h.1.1 hcc

set_option maxRecDepth 100000 in
/-- Sanity: the MD5 implementation reproduces the RFC 1321 test
vectors for the empty string and `"abc"`. -/
theorem md5hex_test_vectors :
    md5hex "" = "d41d8cd98f00b204e9800998ecf8427e" ∧
    md5hex "abc" = "900150983cd24fb0d6963f7d28e17f72" := by
  exact ⟨by decide, by decide⟩

/-! # Claim theorems -/

/-- C1, counterexample: the claim's freshness rule uses
`max(atime, mtime)`, but `is_cache_valid` uses the access time alone.
With retention enabled, `cache_days = 7`, a file whose atime is 10 days
old but whose mtime is `now`, the code reports the entry stale while
the claimed rule reports it fresh. -/
theorem claim1_freshness_counterexample :
    isCacheValid ⟨true, 7⟩ (some ⟨0, 864000, true⟩) 864000 = false ∧
    isCacheValidSpec ⟨true, 7⟩ (some ⟨0, 864000, true⟩) 864000 = true := by
  exact ⟨by decide, by decide⟩

/-- C1, amended: `is_cache_valid(path)` returns true iff the file
exists AND (cache retention is disabled OR `now` minus the file's
atime — falling back to mtime only when reading atime raises — is less
than `cache_days` days). -/
theorem claim1_freshness_amended (cfg : CacheConfig) (file : Option FileStat)
    (now : Int) : isCacheValid cfg file now = isCacheValidAmended cfg file now := by
  cases file with
  | none => rfl
  | some st =>
    cases h : cfg.retentionEnabled <;>
      simp [isCacheValid, isCacheValidAmended, h]

/-- C3: the delete endpoint's security check is a raw-string
`startswith` on the un-normalized joined path, so a relative path
containing `..` passes the check and `delete_cached_file` unlinks a
file outside the resolved storage root: with storage root
`/data/storage` and input `../../etc/passwd`, the function returns
`True` and unlinks `/etc/passwd`. -/
theorem claim3_delete_traversal :
    infixOfB "..".toList ("../../etc/passwd" : String).toList = true ∧
    deleteCachedFile "/data/storage" "../../etc/passwd" (fun p => p == "/etc/passwd") =
      (true, some "/etc/passwd") ∧
    isUnderRoot "/data/storage" "/etc/passwd" = false := by
  exact ⟨by decide, by decide, by decide⟩

/-- C7: `get_upstream_key` returns `{distro}-security` iff the
lowercased package path contains the substring `security` and
`{distro}-security` is among the approved mirrors; in every other case
it returns `distro` unchanged. -/
theorem claim7_upstream_key (distro packagePath : String) (m : MirrorMap) :
    (getUpstreamKey distro packagePath m = distro ++ "-security" ↔
      infixOfB "security".toList (strLower packagePath).toList = true ∧
      containsKey (getAllMirrors m) (distro ++ "-security") = true) ∧
    (getUpstreamKey distro packagePath m = distro ++ "-security" ∨
      getUpstreamKey distro packagePath m = distro) := by
  have hne : distro ++ "-security" ≠ distro := by
    intro h
    have hl := congrArg String.length h
    rw [String.length_append] at hl
    have h9 : ("-security" : String).length = 9 := rfl
    omega
  by_cases h1 : infixOfB "security".toList (strLower packagePath).toList = true <;>
    by_cases h2 : containsKey (getAllMirrors m) (distro ++ "-security") = true <;>
      simp [getUpstreamKey, h1, h2, hne, Ne.symm hne]

/-- C8, counterexample: the claim (following the spec) says `is_self`
holds for the name `::1`, but the source takes
`host.split(':')[0]`, which turns `::1` into the empty hostname, so
the literal check fails; with DNS lookups failing and the given URL
reachable, `save_mirror_to_db` accepts `::1` and mutates both stores. -/
theorem claim8_self_reject_counterexample :
    isSelfSpec ⟨fun _ => none, [], fun _ => true⟩ "::1" = true ∧
    isSelf ⟨fun _ => none, [], fun _ => true⟩ "::1" = false ∧
    saveMirrorToDb ⟨fun _ => none, [], fun _ => true⟩ ⟨[], []⟩ "::1"
        ["http://mirror.example"] "pending" =
      (true, ⟨[("::1", ["http://mirror.example"], "pending")],
              [("::1", ⟨["http://mirror.example"], "pending"⟩)]⟩) := by
  exact ⟨by decide, by decide, by decide⟩

/-- C8, amended: for every mirror name for which `is_self` as
implemented holds (the part of the name before the first `:` is
`localhost`, `127.0.0.1`, `::1` or `0.0.0.0` — which the
port-stripping makes unreachable for `::1` itself — or DNS-resolves to
a locally bound IP), `save_mirror_to_db` returns false and mutates
neither the persistent store nor the in-memory mirror map. -/
theorem claim8_self_reject (env : NetEnv) (st : MirrorState) (name : String)
    (urls : List String) (status : String) (h : isSelf env name = true) :
    saveMirrorToDb env st name urls status = (false, st) := by
  simp [saveMirrorToDb, h]

/-- C8, witness: `localhost` is recognised as self and rejected
without mutation. -/
theorem claim8_self_reject_witness :
    isSelf ⟨fun _ => none, [], fun _ => true⟩ "localhost" = true ∧
    saveMirrorToDb ⟨fun _ => none, [], fun _ => true⟩ ⟨[], []⟩ "localhost"
        ["http://x"] "pending" = (false, ⟨[], []⟩) :=
  ⟨by decide, claim8_self_reject _ _ _ _ _ (by decide)⟩

/-- C2: for a non-CONNECT request whose path does not map to a managed
(approved) distro, `handle_all` performs a direct passthrough proxy
exactly when `passthrough_mode` is enabled and the original request
target is absolute-form (`http…`); in every other such case it
responds 404. -/
theorem claim2_router_passthrough (ctx : ReqCtx) (hm : ctx.method ≠ "CONNECT")
    (hman : routeManaged ctx = none) :
    ((handleAll ctx = .directPassthrough ctx.url) ↔
      (ctx.passthroughMode = true ∧ "http".toList.isPrefixOf ctx.url.toList = true)) ∧
    (¬(ctx.passthroughMode = true ∧ "http".toList.isPrefixOf ctx.url.toList = true) →
      (handleAll ctx).is404 = true) := by
  have hmb : (ctx.method == "CONNECT") = false := beq_eq_false_iff_ne.mpr hm
  have hall : handleAll ctx =
      (if ctx.passthroughMode then
        (if "http".toList.isPrefixOf ctx.url.toList then
          RouterAction.directPassthrough ctx.url
         else .notFound404 ("Unknown path and not a full proxy URL: " ++ ctx.path))
       else .notFound404 ("Unsupported request: " ++ ctx.path)) := by
    unfold handleAll
    rw [if_neg (by simp [hmb]), hman]
  rw [hall]
  cases hp : ctx.passthroughMode <;>
    cases hpre : "http".toList.isPrefixOf ctx.url.toList <;>
      simp [RouterAction.is404]

/-- C2, witness: a two-segment-less path with no approved mirrors and
passthrough enabled is proxied straight through to `request.url`. -/
theorem claim2_router_passthrough_witness :
    (⟨"GET", "zzz", "http://c.example/zzz", true, []⟩ : ReqCtx).method ≠ "CONNECT" ∧
    routeManaged ⟨"GET", "zzz", "http://c.example/zzz", true, []⟩ = none ∧
    handleAll ⟨"GET", "zzz", "http://c.example/zzz", true, []⟩ =
      .directPassthrough "http://c.example/zzz" := by
  refine ⟨by decide, by decide, ?_⟩
  exact (claim2_router_passthrough ⟨"GET", "zzz", "http://c.example/zzz", true, []⟩
    (by decide) (by decide)).1.mpr ⟨rfl, by decide⟩

/-- One failing step of the failover loop: record the error and move
on to the remaining URLs. -/
theorem streamAndCacheGo_cons_fail (fetch : String → Upstream) (sc : Bool)
    (le : Option String) (u : String) (rest : List String)
    (h1 : fetch u ≠ .resp 304) (h2 : fetch u ≠ .resp 206)
    (h3 : fetch u ≠ .resp 200) :
    streamAndCacheGo fetch sc le (u :: rest) =
      ((streamAndCacheGo fetch sc (some (failureText (fetch u))) rest).1,
        u :: (streamAndCacheGo fetch sc (some (failureText (fetch u))) rest).2) := by
  simp only [streamAndCacheGo]
  rw [if_neg h1, if_neg h2, if_neg h3]

/-- The mirror-failover loop returns the 502 with the last recorded
error string, having consulted every URL in order, when every URL
fails. -/
theorem streamAndCacheGo_all_fail (fetch : String → Upstream) (sc : Bool)
    (urls : List String) (le : Option String) (hne : urls ≠ [])
    (hfail : ∀ u ∈ urls, isUpstreamFailure (fetch u) = true) :
    streamAndCacheGo fetch sc le urls =
      (.failed 502 ("All upstream mirrors failed. Last error: " ++
        failureText (fetch (urls.getLastD ""))), urls) := by
  induction urls generalizing le with
  | nil => exact absurd rfl hne
  | cons u rest ih =>
    have hu := hfail u (List.mem_cons_self u rest)
    obtain ⟨h1, h2, h3⟩ := upstream_failure_ne _ hu
    rw [streamAndCacheGo_cons_fail fetch sc le u rest h1 h2 h3]
    cases rest with
    | nil => simp [streamAndCacheGo, renderLastError]
    | cons v vs =>
      have ihh := ih (some (failureText (fetch u))) (by simp)
        (fun x hx => hfail x (List.mem_cons_of_mem _ hx))
      rw [ihh]
      simp [List.getLastD_cons]

/-- C4: `stream_and_cache` tries the upstream URLs strictly in the
given order; a transport error, timeout, 404 or other non-success
status makes it record the error and continue with the next URL, and
after every URL has failed it returns a 502 carrying the last error
string (including when every mirror returned 404). -/
theorem claim4_failover_exhaustion (fetch : String → Upstream)
    (patterns : List String) (cacheName : String) (urls : List String)
    (hne : urls ≠ [])
    (hfail : ∀ u ∈ urls, isUpstreamFailure (fetch u) = true) :
    streamAndCache fetch patterns cacheName urls =
      (.failed 502 ("All upstream mirrors failed. Last error: " ++
        failureText (fetch (urls.getLastD ""))), urls) := by
  unfold streamAndCache
  exact streamAndCacheGo_all_fail fetch _ urls none hne hfail

/-- C4, witness: two mirrors both answering 404 yield a 502 whose body
carries `404 Not Found`, with both URLs consulted in order. -/
theorem claim4_failover_exhaustion_witness :
    (["http://a/f", "http://b/f"] : List String) ≠ [] ∧
    streamAndCache (fun _ => .resp 404) [] "h_f.deb" ["http://a/f", "http://b/f"] =
      (.failed 502 "All upstream mirrors failed. Last error: 404 Not Found",
        ["http://a/f", "http://b/f"]) := by
  refine ⟨by decide, ?_⟩
  exact (claim4_failover_exhaustion (fun _ => .resp 404) [] "h_f.deb"
    ["http://a/f", "http://b/f"] (by decide) (by decide)).trans (by decide)

/-- The basename computed by scanning back from the end equals the
last slash-delimited segment computed by a forward fold. -/
theorem lastSeg_list (l : List Char) :
    (l.reverse.takeWhile (fun c => c != '/')).reverse =
      l.foldl (fun acc c => if c == '/' then [] else acc ++ [c]) [] := by
  induction l using List.reverseRecOn with
  | nil => rfl
  | append_singleton l x ih =>
    rw [List.foldl_append, List.reverse_append]
    simp only [List.foldl_cons, List.foldl_nil, List.reverse_singleton,
      List.singleton_append, List.takeWhile_cons]
    by_cases hx : x = '/'
    · subst hx
      simp
    · have hxb : (x != '/') = true := by simp [hx]
      have hxe : (x == '/') = false := by simp [hx]
      simp only [hxb, hxe, if_true, if_false, List.reverse_cons]
      rw [ih]
      simp

/-- `os.path.basename` agrees with the spec's "last slash-delimited
segment". -/
theorem osBasename_eq (p : String) : osBasename p = lastSlashSegment p := by
  unfold osBasename lastSlashSegment
  exact congrArg String.mk (lastSeg_list p.toList)

/-- A `pathlib` join with a nonempty, non-absolute right operand is
plain concatenation with a slash. -/
theorem pyJoin_concat (a b : String) (h1 : b.toList ≠ [])
    (h2 : b.toList.headD ' ' ≠ '/') : pyJoin a b = a ++ "/" ++ b := by
  unfold pyJoin
  rw [if_neg h1, if_neg (by simpa using h2)]

/-- The hex digest starts with a hex digit, never a slash. -/
theorem md5hex_head (s : String) :
    ∃ a rest, (md5hex s).toList = a :: rest ∧ a ≠ '/' := by
  refine ⟨_, _, rfl, hexChar_ne_slash _⟩

/-- String append acts as list append on the characters. -/
theorem strToList_append (x y : String) : (x ++ y).toList = x.toList ++ y.toList := by
  cases x with
  | mk lx => cases y with
    | mk ly => rfl

/-- C9: the derived cache file path is the pure function
`STORAGE/<distro>/<h[0:2]>/<h>_<basename>` of its arguments, where `h`
is the MD5 hex digest of the package path and `basename` its last
slash-delimited segment (literal `index` when that segment is empty);
two independent derivations are identical.  The hypotheses record that
the distro segment, as produced by the router's path split, is
nonempty and contains no leading slash (otherwise `pathlib` would drop
or re-root it). -/
theorem claim9_cache_path (storage distro path : String)
    (h1 : distro.toList ≠ []) (h2 : distro.toList.headD ' ' ≠ '/') :
    getCachePath storage distro path = specCachePath storage distro path ∧
    getCachePath storage distro path = getCachePath storage distro path := by
  refine ⟨?_, rfl⟩
  obtain ⟨a, rest, hh, ha⟩ := md5hex_head path
  have c2l : (String.mk ((md5hex path).toList.take 2)).toList = a :: rest.take 1 := by
    show (md5hex path).toList.take 2 = a :: rest.take 1
    rw [hh]
    rfl
  have c2ne : (String.mk ((md5hex path).toList.take 2)).toList ≠ [] := by
    rw [c2l]
    simp
  have c2h : (String.mk ((md5hex path).toList.take 2)).toList.headD ' ' ≠ '/' := by
    rw [c2l]
    simpa using ha
  have c3l : ∀ b : String, (md5hex path ++ "_" ++ b).toList =
      a :: (rest ++ "_".toList ++ b.toList) := by
    intro b
    rw [strToList_append, strToList_append, hh]
    simp
  have c3ne : ∀ b : String, (md5hex path ++ "_" ++ b).toList ≠ [] := by
    intro b
    rw [c3l]
    simp
  have c3h : ∀ b : String, (md5hex path ++ "_" ++ b).toList.headD ' ' ≠ '/' := by
    intro b
    rw [c3l]
    simpa using ha
  simp only [getCachePath, specCachePath, osBasename_eq]
  rw [pyJoin_concat storage distro h1 h2,
    pyJoin_concat _ _ c2ne c2h,
    pyJoin_concat _ _ (c3ne _) (c3h _)]

/-- C9, witness: concrete derivation for
`("ubuntu", "pool/main/foo.deb")`. -/
theorem claim9_cache_path_witness :
    ("ubuntu" : String).toList ≠ [] ∧
    ("ubuntu" : String).toList.headD ' ' ≠ '/' ∧
    getCachePath "/storage" "ubuntu" "pool/main/foo.deb" =
      specCachePath "/storage" "ubuntu" "pool/main/foo.deb" :=
  ⟨by decide, by decide,
    (claim9_cache_path "/storage" "ubuntu" "pool/main/foo.deb"
      (by decide) (by decide)).1⟩

/-- C5, counterexample: `cache_path.with_suffix('.tmp')` replaces an
existing suffix rather than appending, so for a cache file whose name
already ends in `.tmp` (a package file named `*.tmp`) the "temp" path
IS the final path: starting from an empty filesystem, an observer sees
the partial contents `[1]` (and the empty file) at the final cache
path in the middle of the fetch. -/
theorem claim5_atomic_commit_counterexample :
    pyWithSuffix "ab_x.tmp" ".tmp" = "ab_x.tmp" ∧
    (generateCachedTrace "ab_x.tmp" [[1], [2]] none (fun _ => none)).map
        (fun fs => fs "ab_x.tmp") =
      [some [], some [1], some [1, 2], some [1, 2]] ∧
    ([1] : List Nat) ≠ [[1], [2]].flatten := by
  exact ⟨by decide, by decide, by decide⟩

/-- The chunk-writing loop touches no path other than the temp file:
its final state and every recorded intermediate state agree with the
starting state away from `tmp`. -/
theorem writePhase_preserve (tmp : String) (chunks : List (List Nat)) :
    ∀ (fs : FS) (acc : List Nat) (err : Option Nat) (q : String), q ≠ tmp →
      (writePhase tmp fs acc chunks err).2.1 q = fs q ∧
      ∀ fs' ∈ (writePhase tmp fs acc chunks err).1, fs' q = fs q := by
  induction chunks with
  | nil =>
    intro fs acc err q hq
    match err with
    | none => simp [writePhase]
    | some 0 => simp [writePhase]
    | some (k + 1) => simp [writePhase]
  | cons c rest ih =>
    intro fs acc err q hq
    have hqb : (q == tmp) = false := beq_eq_false_iff_ne.mpr hq
    have hw : fsWrite fs tmp (acc ++ c) q = fs q := by simp [fsWrite, hqb]
    match err with
    | some 0 => simp [writePhase]
    | none =>
      have ih2 := ih (fsWrite fs tmp (acc ++ c)) (acc ++ c) none q hq
      simp only [writePhase, Option.map_none']
      refine ⟨by rw [ih2.1, hw], ?_⟩
      intro fs' hf
      rcases List.mem_cons.mp hf with hf | hf
      · rw [hf, hw]
      · rw [ih2.2 fs' hf, hw]
    | some (k + 1) =>
      have ih2 := ih (fsWrite fs tmp (acc ++ c)) (acc ++ c) (some k) q hq
      simp only [writePhase, Option.map_some', Nat.add_sub_cancel]
      refine ⟨by rw [ih2.1, hw], ?_⟩
      intro fs' hf
      rcases List.mem_cons.mp hf with hf | hf
      · rw [hf, hw]
      · rw [ih2.2 fs' hf, hw]

/-- The chunk-writing loop succeeds when the stream never raises. -/
theorem writePhase_ok_none (tmp : String) (chunks : List (List Nat)) :
    ∀ (fs : FS) (acc : List Nat),
      (writePhase tmp fs acc chunks none).2.2 = true := by
  induction chunks with
  | nil => intro fs acc; simp [writePhase]
  | cons c rest ih =>
    intro fs acc
    simp only [writePhase]
    exact ih _ _

/-- The chunk-writing loop fails when the stream raises before or at
the end of the chunk list. -/
theorem writePhase_fail_some (tmp : String) (chunks : List (List Nat)) :
    ∀ (fs : FS) (acc : List Nat) (k : Nat), k ≤ chunks.length →
      (writePhase tmp fs acc chunks (some k)).2.2 = false := by
  induction chunks with
  | nil =>
    intro fs acc k hk
    have : k = 0 := by simpa using hk
    subst this
    simp [writePhase]
  | cons c rest ih =>
    intro fs acc k hk
    match k with
    | 0 => simp [writePhase]
    | j + 1 =>
      simp only [writePhase, Option.map_some', Nat.add_sub_cancel]
      exact ih _ _ j (by simpa using hk)

/-- On success the loop leaves the temp file holding the accumulated
prefix followed by all remaining chunks. -/
theorem writePhase_content (tmp : String) (chunks : List (List Nat)) :
    ∀ (fs : FS) (acc : List Nat) (err : Option Nat), fs tmp = some acc →
      (writePhase tmp fs acc chunks err).2.2 = true →
      (writePhase tmp fs acc chunks err).2.1 tmp = some (acc ++ chunks.flatten) := by
  induction chunks with
  | nil =>
    intro fs acc err hacc _
    match err with
    | none => simpa [writePhase] using hacc
    | some 0 => simp [writePhase] at *
    | some (k + 1) => simpa [writePhase] using hacc
  | cons c rest ih =>
    intro fs acc err hacc hok
    have hw : fsWrite fs tmp (acc ++ c) tmp = some (acc ++ c) := by simp [fsWrite]
    match err with
    | some 0 => simp [writePhase] at hok
    | none =>
      simp only [writePhase, Option.map_none'] at hok ⊢
      rw [ih _ _ none hw hok]
      simp [List.flatten_cons, List.append_assoc]
    | some (k + 1) =>
      simp only [writePhase, Option.map_some', Nat.add_sub_cancel] at hok ⊢
      rw [ih _ _ (some k) hw hok]
      simp [List.flatten_cons, List.append_assoc]

/-- The last element of the recorded trace. -/
theorem lastD_concat (l : List FS) (x : FS) : ∀ d, (l ++ [x]).getLastD d = x := by
  induction l with
  | nil => intro d; rfl
  | cons a t ih =>
    intro d
    rw [List.cons_append, List.getLastD_cons]
    exact ih a

/-- C5, amended: provided the derived temp path differs from the final
cache path (that is, the cache filename's suffix is not already
`.tmp`), bytes are written only to the sibling temp file: starting
from a filesystem with nothing at the final path, every state an
observer can see has either nothing or the complete contents at the
final cache path; a successful end of stream leaves exactly the full
contents at the final path and no temp file, and an error any time up
to the end of the stream leaves nothing at either path. -/
theorem claim5_atomic_commit (finalName : String) (chunks : List (List Nat))
    (errAfter : Option Nat) (fs0 : FS)
    (htmp : pyWithSuffix finalName ".tmp" ≠ finalName)
    (hinit : fs0 finalName = none) :
    (∀ fs ∈ generateCachedTrace finalName chunks errAfter fs0,
       fs finalName = none ∨ fs finalName = some chunks.flatten) ∧
    (errAfter = none →
       ((generateCachedTrace finalName chunks errAfter fs0).getLastD fs0) finalName =
           some chunks.flatten ∧
         ((generateCachedTrace finalName chunks errAfter fs0).getLastD fs0)
             (pyWithSuffix finalName ".tmp") = none) ∧
    (∀ k, errAfter = some k → k ≤ chunks.length →
       ((generateCachedTrace finalName chunks errAfter fs0).getLastD fs0) finalName =
           none ∧
         ((generateCachedTrace finalName chunks errAfter fs0).getLastD fs0)
             (pyWithSuffix finalName ".tmp") = none) := by
  set tmp := pyWithSuffix finalName ".tmp" with htmpdef
  have hfnt : finalName ≠ tmp := fun h => htmp h.symm
  have hfntb : (finalName == tmp) = false := beq_eq_false_iff_ne.mpr hfnt
  have htfb : (tmp == finalName) = false := beq_eq_false_iff_ne.mpr htmp
  have hOpenFinal : fsWrite fs0 tmp [] finalName = none := by
    simp [fsWrite, hfntb, hinit]
  have hOpenTmp : fsWrite fs0 tmp [] tmp = some [] := by simp [fsWrite]
  have htr : generateCachedTrace finalName chunks errAfter fs0 =
      (if (writePhase tmp (fsWrite fs0 tmp []) [] chunks errAfter).2.2 then
        fsWrite fs0 tmp [] ::
          ((writePhase tmp (fsWrite fs0 tmp []) [] chunks errAfter).1 ++
            [fsRename (writePhase tmp (fsWrite fs0 tmp []) [] chunks errAfter).2.1
              tmp finalName])
       else fsWrite fs0 tmp [] ::
          ((writePhase tmp (fsWrite fs0 tmp []) [] chunks errAfter).1 ++
            [fsRemove (writePhase tmp (fsWrite fs0 tmp []) [] chunks errAfter).2.1
              tmp])) := by
    simp only [generateCachedTrace, htmpdef]
    split <;> simp [List.cons_append]
  have hpres := writePhase_preserve tmp chunks (fsWrite fs0 tmp []) [] errAfter
    finalName hfnt
  refine ⟨?_, ?_, ?_⟩
  · intro fs hfs
    rw [htr] at hfs
    by_cases hok : (writePhase tmp (fsWrite fs0 tmp []) [] chunks errAfter).2.2 = true
    · rw [if_pos hok] at hfs
      rcases List.mem_cons.mp hfs with h | h
      · left
        rw [h]
        exact hOpenFinal
      · rcases List.mem_append.mp h with h | h
        · left
          rw [hpres.2 fs h]
          exact hOpenFinal
        · have heq : fs = fsRename
              (writePhase tmp (fsWrite fs0 tmp []) [] chunks errAfter).2.1
              tmp finalName := by simpa using h
          right
          rw [heq]
          have hcont := writePhase_content tmp chunks (fsWrite fs0 tmp []) []
            errAfter hOpenTmp hok
          simp only [fsRename, beq_self_eq_true, if_true]
          rw [hcont]
          simp
    · rw [if_neg hok] at hfs
      rcases List.mem_cons.mp hfs with h | h
      · left
        rw [h]
        exact hOpenFinal
      · rcases List.mem_append.mp h with h | h
        · left
          rw [hpres.2 fs h]
          exact hOpenFinal
        · have heq : fs = fsRemove
              (writePhase tmp (fsWrite fs0 tmp []) [] chunks errAfter).2.1 tmp := by
            simpa using h
          left
          rw [heq]
          simp only [fsRemove, hfntb, if_false]
          rw [hpres.1]
          exact hOpenFinal
  · intro he
    subst he
    have hok := writePhase_ok_none tmp chunks (fsWrite fs0 tmp []) []
    rw [htr, if_pos hok, ← List.cons_append, lastD_concat]
    constructor
    · have hcont := writePhase_content tmp chunks (fsWrite fs0 tmp []) []
        none hOpenTmp hok
      simp only [fsRename, beq_self_eq_true, if_true]
      rw [hcont]
      simp
    · simp [fsRename, htfb]
  · intro k hke hkle
    subst hke
    have hok := writePhase_fail_some tmp chunks (fsWrite fs0 tmp []) [] k hkle
    rw [htr, if_neg (by simp [hok]), ← List.cons_append, lastD_concat]
    constructor
    · simp only [fsRemove, hfntb, if_false]
      rw [hpres.1]
      exact hOpenFinal
    · simp [fsRemove]

/-- C5, witness: a normal fetch of two chunks into `ab_x.deb` (temp
file `ab_x.tmp`) ends with the full contents at the final path. -/
theorem claim5_atomic_commit_witness :
    pyWithSuffix "ab_x.deb" ".tmp" ≠ "ab_x.deb" ∧
    ((fun _ => none : FS) "ab_x.deb" = none) ∧
    ((generateCachedTrace "ab_x.deb" [[1], [2]] none (fun _ => none)).getLastD
        (fun _ => none)) "ab_x.deb" = some [[1], [2]].flatten := by
  refine ⟨by decide, rfl, ?_⟩
  exact ((claim5_atomic_commit "ab_x.deb" [[1], [2]] none (fun _ => none)
    (by decide) rfl).2.1 rfl).1

end AptMirror
